import Mathlib

/-!
Verification of `report_hours.py`: a shallow embedding of its core
(directive/record parser and report renderer) with theorems checking the
natural-language specification's claims against the code.

Conventions of the embedding:
* Python strings are Lean `String`s; character-level work is done on
  `List Char` with structural recursion so that everything reduces.
* Python floats are modelled as `Rat` (every number the format produces is
  a decimal literal or a sum of minute-granularity timespans, so rational
  arithmetic is the intended value semantics).
* Fallible code returns `Except`; `GiveUp` exceptions become `Err` values,
  and unhandled Python exceptions (crashes) are modelled by dedicated
  constructors (`Err.dateError`, `Err.indexCrash`, `RunErr.attrCrash`).
-/

deriving instance DecidableEq for Except

set_option maxRecDepth 4000

namespace ReportHours

/-! ## Python string primitives (character-level, structural) -/

/-- Whitespace for Python `str.strip` / `str.split()`:
space, tab, newline, carriage return, vertical tab, form feed. -/
def isWs (c : Char) : Bool :=
  c = ' ' || c = '\t' || c = '\n' || c = '\r' || c = '\x0b' || c = '\x0c'

/-- Leading-whitespace strip (Python `lstrip`). -/
def trimLeftWs (cs : List Char) : List Char := cs.dropWhile isWs

/-- Trailing-whitespace strip (Python `rstrip`). -/
def trimRightWs (cs : List Char) : List Char :=
  (cs.reverse.dropWhile isWs).reverse

/-- Python `str.strip()`. -/
def stripWs (cs : List Char) : List Char := trimLeftWs (trimRightWs cs)

/-- Does `pre` lead `cs`? (our own prefix test, structural). -/
def leadsWith : List Char → List Char → Bool
  | [], _ => true
  | _ :: _, [] => false
  | p :: ps, c :: cs => p = c && leadsWith ps cs

/-- Python `str.split(sep)` for a non-empty separator, with explicit fuel
(the fuel is always at least the length of the input, so it never runs out). -/
def splitOnGo (sep : List Char) : Nat → List Char → List Char → List (List Char)
  | _, [], acc => [acc.reverse]
  | 0, cs, acc => [acc.reverse ++ cs]
  | fuel + 1, c :: rest, acc =>
    if leadsWith sep (c :: rest) then
      acc.reverse :: splitOnGo sep fuel (List.drop (sep.length - 1) rest) []
    else
      splitOnGo sep fuel rest (c :: acc)

/-- Python `str.split(sep)` on character lists. -/
def splitOnCs (sep : List Char) (cs : List Char) : List (List Char) :=
  splitOnGo sep cs.length cs []

/-- Python `str.split()` (split on whitespace runs, dropping empties). -/
def wsTokensGo : List Char → List Char → List (List Char)
  | [], cur => if cur.isEmpty then [] else [cur.reverse]
  | c :: rest, cur =>
    if isWs c then
      if cur.isEmpty then wsTokensGo rest [] else cur.reverse :: wsTokensGo rest []
    else
      wsTokensGo rest (c :: cur)

def wsTokens (cs : List Char) : List (List Char) := wsTokensGo cs []

/-- Python `' '.join(parts)`. -/
def joinSpace : List (List Char) → List Char
  | [] => []
  | [x] => x
  | x :: xs => x ++ ' ' :: joinSpace xs

/-- Python `needle in s` (substring test) for a non-empty needle. -/
def containsSeq (needle : List Char) : List Char → Bool
  | [] => leadsWith needle []
  | c :: rest => leadsWith needle (c :: rest) || containsSeq needle rest

/-- Python `str.capitalize()`: first char uppercased, the rest lowercased
(ASCII suffices for this format's inputs). -/
def pyCapitalize (s : String) : String :=
  match s.data with
  | [] => ""
  | c :: cs => String.mk (c.toUpper :: cs.map Char.toLower)

/-- Value of a digit list, most significant first. -/
def digitsVal (cs : List Char) : Nat :=
  cs.foldl (fun a c => a * 10 + (c.toNat - 48)) 0

/-- Returns `some` value iff the list is a non-empty run of ASCII digits. -/
def natOfDigits (cs : List Char) : Option Nat :=
  if cs.isEmpty then none
  else if cs.all Char.isDigit then some (digitsVal cs) else none

/-- Python `int(s)`: strips whitespace, optional sign, decimal digits.
(Underscore separators and non-ASCII digits are outside this format's use.) -/
def pyInt (s : String) : Option Int :=
  match stripWs s.data with
  | '+' :: ds => (natOfDigits ds).map Int.ofNat
  | '-' :: ds => (natOfDigits ds).map (fun n => -(n : Int))
  | ds => (natOfDigits ds).map Int.ofNat

/-- Split off a leading run of digits. -/
def spanDigits : List Char → List Char × List Char
  | [] => ([], [])
  | c :: rest =>
    if c.isDigit then
      let p := spanDigits rest
      (c :: p.1, p.2)
    else ([], c :: rest)

/-- Magnitude part of Python `float(s)` for the plain decimal forms the
format uses: `digits`, `digits.digits?`, `.digits` (no exponent/inf/nan). -/
def pyFloatMag (cs : List Char) : Option Rat :=
  let p := spanDigits cs
  match p.2 with
  | [] => if p.1.isEmpty then none else some (digitsVal p.1 : Rat)
  | '.' :: r2 =>
    let q := spanDigits r2
    if q.2.isEmpty then
      if p.1.isEmpty && q.1.isEmpty then none
      else some ((digitsVal p.1 : Rat) + (digitsVal q.1 : Rat) / ((10 : Rat) ^ q.1.length))
    else none
  | _ => none

/-- Python `float(s)` on the decimal subset used by the hours format. -/
def pyFloat (s : String) : Option Rat :=
  match stripWs s.data with
  | '+' :: rest => pyFloatMag rest
  | '-' :: rest => (pyFloatMag rest).map Neg.neg
  | rest => pyFloatMag rest

/-- Python `int(x)` for a float `x`: truncation toward zero. -/
def pyTrunc (q : Rat) : Int := q.num.tdiv (q.den : Int)

/-- Python `n * c` for a string of one char: clamped replication. -/
def rep (c : Char) (n : Int) : String := String.mk (List.replicate n.toNat c)

/-- Python `'{:W s}'.format(s)`: left-justify, pad (never truncate) to `w`. -/
def padRight (s : String) (w : Nat) : String :=
  s ++ String.mk (List.replicate (w - s.length) ' ')

/-- Python string `<` (lexicographic on code points). -/
def charListLt : List Char → List Char → Bool
  | [], [] => false
  | [], _ :: _ => true
  | _ :: _, [] => false
  | a :: as, b :: bs => decide (a.toNat < b.toNat) || (a = b && charListLt as bs)

def strLt (a b : String) : Bool := charListLt a.data b.data

/-! ## Proleptic Gregorian calendar (as in Python's `datetime.date`) -/

def isLeap (y : Nat) : Bool := y % 4 = 0 && (y % 100 ≠ 0 || y % 400 = 0)

def daysInMonth (y m : Nat) : Nat :=
  if m = 2 then (if isLeap y then 29 else 28)
  else if m = 4 || m = 6 || m = 9 || m = 11 then 30
  else 31

def daysBeforeMonth (y m : Nat) : Nat :=
  (List.range m).foldl (fun acc k => if 1 ≤ k then acc + daysInMonth y k else acc) 0

def daysBeforeYear (y : Nat) : Nat :=
  (y - 1) * 365 + (y - 1) / 4 - (y - 1) / 100 + (y - 1) / 400

/-- Embeds `datetime.date.toordinal()`: day 1 is 0001-01-01. -/
def toOrdinal (y m d : Nat) : Nat := daysBeforeYear y + daysBeforeMonth y m + d

structure PyDate where
  year : Int
  month : Nat
  day : Nat
deriving DecidableEq

/-- Embeds `datetime.date.weekday()`: Monday = 0 … Sunday = 6. -/
def PyDate.weekday (dt : PyDate) : Nat :=
  (toOrdinal dt.year.toNat dt.month dt.day + 6) % 7

def PyDate.toOrd (dt : PyDate) : Int := (toOrdinal dt.year.toNat dt.month dt.day : Int)

/-- Embeds `datetime.date(y, m, d)` — `none` models the `ValueError` raised on an
out-of-range component (which `parse_hours_line` does not catch). -/
def mkDate (y : Int) (m : Nat) (d : Int) : Option PyDate :=
  if 1 ≤ y ∧ y ≤ 9999 ∧ 1 ≤ m ∧ m ≤ 12 ∧ 1 ≤ d ∧ d ≤ (daysInMonth y.toNat m : Int) then
    some ⟨y, m, d.toNat⟩
  else none

/-- Python `date < date` (chronological = lexicographic on (y, m, d)). -/
def dateLt (a b : PyDate) : Bool :=
  decide (a.year < b.year) ||
    (a.year = b.year &&
      (decide (a.month < b.month) || (a.month = b.month && decide (a.day < b.day))))

def DAYS : List String := ["Mon", "Tue", "Wed", "Thu", "Fri", "Sat", "Sun"]

def dayAt (w : Nat) : String := DAYS.getD w ""

def MONTHS : List (String × Nat) :=
  [("Jan", 1), ("Feb", 2), ("Mar", 3), ("Apr", 4), ("May", 5), ("Jun", 6),
   ("Jul", 7), ("Aug", 8), ("Sep", 9), ("Oct", 10), ("Nov", 11), ("Dec", 12)]

def isMonthName (s : String) : Bool := (MONTHS.lookup (pyCapitalize s)).isSome

def monthNum (canonical : String) : Nat := (MONTHS.lookup canonical).getD 0

def MONTH_NAME : List (Nat × String) :=
  [(1, "Jan"), (2, "Feb"), (3, "Mar"), (4, "Apr"), (5, "May"), (6, "Jun"),
   (7, "Jul"), (8, "Aug"), (9, "Sep"), (10, "Oct"), (11, "Nov"), (12, "Dec")]

def monthName (m : Nat) : String := (MONTH_NAME.lookup m).getD ""

/-- The keys of `hours_per_day` are always exactly the seven day mnemonics
(`set_hours` only assigns to existing keys), so Python's
`day_name.capitalize() not in self.hours_per_day` is membership in `DAYS`. -/
def isDayName (s : String) : Bool := DAYS.contains (pyCapitalize s)

/-! ## Errors (`GiveUp` values, plus modelled crashes) -/

/-- Every `GiveUp` the parser can raise, carrying the data its message
formats.  `dateError` and `indexCrash` model unhandled Python exceptions
(`ValueError` from `datetime.date`, `IndexError` on `parts[0]`), which are
not `GiveUp`s in the source; they are kept distinct constructors. -/
inductive Err
  | unknownColonWord (w : String)
  | badYear (t : String)
  | badDays (t : String)
  | missingComma (p : String)
  | notDayEqHours (p : String)
  | unknownExpectDay (d : String)
  | badExpectHours (t : String)
  | badFormat (data : String)
  | unknownDayName (d : String)
  | unknownMonthName (m : String)
  | badDayOfMonth (d : String)
  | dateError (y : Int) (m : Nat) (d : Int)
  | calendarMismatch (dom : Int) (mon : String) (y : Int) (correct got : String)
  | badTimespan (s : String)
  | invalidStartTime (h m : String)
  | invalidEndTime (h m : String)
  | notPositive (s : String)
  | badHoursWord (w : String) (hint : Bool)
  | outOfOrder (a b : PyDate)
  | inLine (n : Nat) (e : Err)
  | indexCrash
deriving DecidableEq

/-! ## The `Report` object's mutable configuration -/

/-- The parser state: `hours_per_day` (always exactly the 7 day keys, so a
field per day), `year`, `project_days`. -/
structure Report where
  mon : Rat
  tue : Rat
  wed : Rat
  thu : Rat
  fri : Rat
  sat : Rat
  sun : Rat
  year : Int
  projectDays : Option Int
deriving DecidableEq

/-- Embeds `Report.__init__`: default hours, year = today's year (a runtime input,
so it is a parameter here), no project days. -/
def initReport (todayYear : Int) : Report :=
  ⟨7.5, 7.5, 7.5, 7.5, 7.5, 0, 0, todayYear, none⟩

/-- Embeds `self.hours_per_day[dayC]` for a canonical day name. -/
def Report.getHours (r : Report) (dayC : String) : Rat :=
  if dayC = "Mon" then r.mon
  else if dayC = "Tue" then r.tue
  else if dayC = "Wed" then r.wed
  else if dayC = "Thu" then r.thu
  else if dayC = "Fri" then r.fri
  else if dayC = "Sat" then r.sat
  else r.sun

/-- Embeds `self.hours_per_day[dayC] = v` for a canonical day name. -/
def Report.setDay (r : Report) (dayC : String) (v : Rat) : Report :=
  if dayC = "Mon" then { r with mon := v }
  else if dayC = "Tue" then { r with tue := v }
  else if dayC = "Wed" then { r with wed := v }
  else if dayC = "Thu" then { r with thu := v }
  else if dayC = "Fri" then { r with fri := v }
  else if dayC = "Sat" then { r with sat := v }
  else { r with sun := v }

/-- Embeds `sum(self.hours_per_day.values())`. -/
def Report.sumHours (r : Report) : Rat :=
  r.mon + r.tue + r.wed + r.thu + r.fri + r.sat + r.sun

/-- Loop body of `Report.set_hours` over the comma-separated entries
(each already stripped); mutation is sequential, an error aborts. -/
def setHoursGo : Report → List (List Char) → Except Err Report
  | r, [] => .ok r
  | r, part :: rest =>
    if part.contains ' ' then .error (.missingComma (String.mk part))
    else
      match splitOnCs ['='] part with
      | [dn, hv] =>
        if isDayName (String.mk dn) = false then .error (.unknownExpectDay (String.mk dn))
        else
          match pyFloat (String.mk hv) with
          | some v => setHoursGo (r.setDay (pyCapitalize (String.mk dn)) v) rest
          | none => .error (.badExpectHours (String.mk hv))
      | _ => .error (.notDayEqHours (String.mk part))

/-- Embeds `Report.set_hours` (the `:expect` directive). -/
def set_hours (r : Report) (text : String) : Except Err Report :=
  setHoursGo r ((splitOnCs [','] text.data).map stripWs)

/-- Embeds `Report.set_year` (the `:year` directive). -/
def set_year (r : Report) (text : String) : Except Err Report :=
  match pyInt text with
  | some y => .ok { r with year := y }
  | none => .error (.badYear text)

/-- Embeds `Report.set_project_days` (the `:days` directive). -/
def set_project_days (r : Report) (text : String) : Except Err Report :=
  match pyInt text with
  | some d => .ok { r with projectDays := some d }
  | none => .error (.badDays text)

/-- Embeds `Report.parse_colon_text`: dispatch on the exact colon word. -/
def parse_colon_text (r : Report) (w rest : String) : Except Err Report :=
  if w = ":year" then set_year r rest
  else if w = ":expect" then set_hours r rest
  else if w = ":days" then set_project_days r rest
  else .error (.unknownColonWord w)

/-! ## Timespans -/

/-- Embeds `timespan_re = (\d|\d\d):(\d\d)\.\.(\d|\d\d):(\d\d)`, anchored at the
start (`re.match`) and required to consume the whole token
(`match.end() == len(span)`).  Returns the four digit groups. -/
def matchTimespan (s : String) : Option (String × String × String × String) :=
  match spanDigits s.data with
  | (d1, rest1) =>
    if d1.length = 0 ∨ 2 < d1.length then none
    else
      match rest1 with
      | ':' :: m1 :: m2 :: r2 =>
        if ¬ (m1.isDigit ∧ m2.isDigit) then none
        else
          match r2 with
          | '.' :: '.' :: r3 =>
            match spanDigits r3 with
            | (d2, rest2) =>
              if d2.length = 0 ∨ 2 < d2.length then none
              else
                match rest2 with
                | [':', m3, m4] =>
                  if m3.isDigit ∧ m4.isDigit then
                    some (String.mk d1, String.mk [m1, m2], String.mk d2, String.mk [m3, m4])
                  else none
                | _ => none
          | _ => none
      | _ => none

/-- One iteration of the `for`-span loop: regex match, the two
`int()`-conversion `try` blocks, the positivity check, and
`delta.seconds / (60*60)` — `timedelta` stores `seconds` reduced modulo a
day, so the duration is `(end - start) % 86400` seconds. -/
def procSpan (span : String) : Except Err Rat :=
  match matchTimespan span with
  | none => .error (.badTimespan span)
  | some (g0, g1, g2, g3) =>
    match pyInt g0, pyInt g1 with
    | some h0, some m0 =>
      match pyInt g2, pyInt g3 with
      | some h1, some m1 =>
        let s := h0 * 3600 + m0 * 60
        let e := h1 * 3600 + m1 * 60
        if e ≤ s then .error (.notPositive span)
        else .ok ((((e - s) % 86400 : Int) : Rat) / 3600)
      | _, _ => .error (.invalidEndTime g2 g3)
    | _, _ => .error (.invalidStartTime g0 g1)

/-- Embeds `hours = 0` then `hours += delta_hours` over the span tokens. -/
def sumSpans : List String → Rat → Except Err Rat
  | [], acc => .ok acc
  | s :: rest, acc =>
    match procSpan s with
    | .error e => .error e
    | .ok h => sumSpans rest (acc + h)

/-- The hours a span contributes when it is accepted (0 on a span the code
rejects; used only to state sums over accepted spans). -/
def spanHoursD (s : String) : Rat :=
  match procSpan s with
  | .ok h => h
  | .error _ => 0

/-! ## `Report.parse_hours_line` -/

/-- A parsed hours record: the tuple `(date, day_name, hours, comment)`. -/
structure HRec where
  date : PyDate
  day : String
  hours : Rat
  comment : String
deriving DecidableEq

/-- Embeds `line.split('--')[0].rstrip()` as characters. -/
def recDataCs (line : String) : List Char :=
  trimRightWs ((splitOnCs ['-', '-'] line.data).headD [])

/-- The data prefix of a record line (named in the format error). -/
def recData (line : String) : String := String.mk (recDataCs line)

/-- Embeds `' '.join(parts[1:]).lstrip()`: the inline comment. -/
def commentOf (line : String) : String :=
  String.mk (trimLeftWs (joinSpace ((splitOnCs ['-', '-'] line.data).drop 1)))

/-- Embeds `data.split()`: the whitespace-separated record fields. -/
def recTokens (line : String) : List String :=
  (wsTokens (recDataCs line)).map String.mk

/-- Resolution of the 4th token: `for` + spans, `holiday`/`pubhol`/`sick`,
or a floating-point literal (with the mistyped-timespan hint). -/
def resolveHours (r : Report) (dayC t4 : String) (spans : List String) : Except Err Rat :=
  if t4 = "for" then sumSpans spans 0
  else if t4 = "holiday" ∨ t4 = "pubhol" ∨ t4 = "sick" then .ok (r.getHours dayC)
  else
    match pyFloat t4 with
    | some h => .ok h
    | none =>
      .error (.badHoursWord t4 (containsSeq ['.', '.'] t4.data && containsSeq [':'] t4.data))

/-- The part of `Report.parse_hours_line` after the token-count check:
day/month canonicalisation, integer day, date construction, weekday check,
hours resolution. -/
def parseHoursBody (r : Report) (line : String) (dn dom mon t4 : String)
    (rest : List String) : Except Err HRec :=
  if isDayName dn = false then .error (.unknownDayName dn)
  else if isMonthName mon = false then .error (.unknownMonthName mon)
  else
    match pyInt dom with
    | none => .error (.badDayOfMonth dom)
    | some di =>
      match mkDate r.year (monthNum (pyCapitalize mon)) di with
      | none => .error (.dateError r.year (monthNum (pyCapitalize mon)) di)
      | some date =>
        if dayAt date.weekday ≠ pyCapitalize dn then
          .error (.calendarMismatch di (pyCapitalize mon) r.year
            (dayAt date.weekday) (pyCapitalize dn))
        else
          (resolveHours r (pyCapitalize dn) t4 rest).map
            (fun h => ⟨date, pyCapitalize dn, h, commentOf line⟩)

/-- Embeds `Report.parse_hours_line`.  The guard mirrors
`len(spec) < 4 or (len(spec) > 4 and spec[3] not in ('for', 'holiday'))`:
a list of fewer than 4 tokens falls to the catch-all arm, and `rest ≠ []`
is `len(spec) > 4`. -/
def parse_hours_line (r : Report) (line : String) : Except Err HRec :=
  match recTokens line with
  | dn :: dom :: mon :: t4 :: rest =>
    if rest ≠ [] ∧ t4 ≠ "for" ∧ t4 ≠ "holiday" then .error (.badFormat (recData line))
    else parseHoursBody r line dn dom mon t4 rest
  | _ => .error (.badFormat (recData line))

/-! ## `Report.parse_line` and `Report.parse_lines` -/

/-- Embeds `Report.parse_line`: strip, drop everything from `#`, empty → `None`,
colon-directive → configuration mutation, otherwise an hours record. -/
def parse_line (r : Report) (line : String) : Except Err (Report × Option HRec) :=
  let l := stripWs line.data
  let text := (splitOnCs ['#'] l).headD []
  if text.isEmpty then .ok (r, none)
  else
    match wsTokens text with
    | [] => .error .indexCrash
    | tok0 :: _ =>
      if tok0.headD ' ' = ':' then
        (parse_colon_text r (String.mk tok0) (String.mk (text.drop tok0.length))).map
          (fun r2 => (r2, none))
      else
        (parse_hours_line r (String.mk text)).map (fun rec => (r, some rec))

/-- Python tuple `<` on `(date, day_name, hours, comment)` — the comparison
`data < prev` at the heart of the ordering check compares *whole tuples*,
lexicographically. -/
def recLt (a b : HRec) : Bool :=
  dateLt a.date b.date ||
    (a.date = b.date &&
      (strLt a.day b.day ||
        (a.day = b.day &&
          (decide (a.hours < b.hours) ||
            (a.hours = b.hours && strLt a.comment b.comment)))))

/-- The generator loop of `Report.parse_lines`: line counting, per-line
error wrapping, the `data < prev` ordering check (raised unwrapped), and
the yielded records collected in order. -/
def parseLinesGo : Report → Nat → Option HRec → List String → Except Err (List HRec)
  | _, _, _, [] => .ok []
  | r, n, prev, line :: rest =>
    match parse_line r line with
    | .error e => .error (.inLine (n + 1) e)
    | .ok (r2, none) => parseLinesGo r2 (n + 1) prev rest
    | .ok (r2, some rec) =>
      match prev with
      | some p =>
        if recLt rec p then .error (.outOfOrder rec.date p.date)
        else (parseLinesGo r2 (n + 1) (some rec) rest).map (rec :: ·)
      | none => (parseLinesGo r2 (n + 1) (some rec) rest).map (rec :: ·)

/-- Embeds `Report.parse_lines` over a whole line source. -/
def parse_lines (r : Report) (lines : List String) : Except Err (List HRec) :=
  parseLinesGo r 0 none lines

/-- The same pass but ignoring the ordering check: the records each line
would yield, with the final configuration.  Used to state which streams
parse cleanly. -/
def parseAllRecs : Report → List String → Except Err (Report × List HRec)
  | r, [] => .ok (r, [])
  | r, line :: rest =>
    match parse_line r line with
    | .error e => .error e
    | .ok (r2, none) => parseAllRecs r2 rest
    | .ok (r2, some rec) => (parseAllRecs r2 rest).map (fun p => (p.1, rec :: p.2))

/-- First adjacent pair `(later, earlier)` with `later < earlier` in the
tuple order, scanning with the previously yielded record. -/
def firstDescent : Option HRec → List HRec → Option (HRec × HRec)
  | _, [] => none
  | none, x :: xs => firstDescent (some x) xs
  | some p, x :: xs => if recLt x p then some (x, p) else firstDescent (some x) xs

/-! ## Renderer: `show_hours`, `show_balance`, `report_lines` -/

/-- Embeds `Report.show_hours` (default width 11, so 22 half-hour cells). -/
def show_hours (r : Report) (day : String) (hours : Rat) : String :=
  let base := pyTrunc (hours * 2)
  let norm := pyTrunc (r.getHours day * 2)
  let width : Nat := 22
  let picture :=
    if base = norm then rep '*' base
    else if base < norm then rep '*' base ++ rep '`' (norm - base)
    else rep '*' norm ++ rep '^' (base - norm)
  padRight picture width ++ "|"

/-- Embeds `Report.show_balance` (defaults `before=4`, `after=15`, doubled to
half-hour cells; the day argument is accepted and unused, as in the source). -/
def show_balance (_day : String) (balance : Rat) : String :=
  let count := pyTrunc (2 * balance)
  let before : Int := 8
  let after : Int := 30
  if balance < 0 then
    (rep ' ' (before - -count) ++ rep '-' (-count)) ++ ":" ++ rep ' ' after
  else
    rep ' ' before ++ ":" ++ (rep '+' count ++ rep ' ' (after - count))

/-- The running accumulators of `Report.report_lines`. -/
structure LoopSt where
  yearShown : Option Int
  total : Rat
  totalExpected : Rat
  totalExtra : Rat
  first : Option PyDate
  last : Option PyDate
  daysWorked : Nat
  weekTotal : Rat
deriving DecidableEq

def initLoopSt : LoopSt := ⟨none, 0, 0, 0, none, none, 0, 0⟩

/-- One printed row.  Numeric formatting (`{:4.1f}` and friends) is kept
as the values being formatted; the two bar pictures are the exact strings. -/
structure Row where
  yearLine : Option Int
  marker : Char
  day : String
  dom : Nat
  monthName : String
  hours : Rat
  picture1 : String
  shownBalance : Option Rat
  picture2 : String
  weekShown : Option Rat
  commentShown : Option String
deriving DecidableEq

/-- The body of the `for date, day, hours, comment in self.parse_lines(...)`
loop: per-record totals update (`if hours:`), the two pictures, and the
printed row.  `r` is the configuration at the moment the record is yielded. -/
def stepRecord (r : Report) (wg sc : Bool) (st : LoopSt) (rec : HRec) : LoopSt × Row :=
  let yearLine := if st.yearShown ≠ some rec.date.year then some rec.date.year else none
  let expected := r.getHours rec.day
  let extra := rec.hours - expected
  let picture1 := show_hours r rec.day rec.hours
  let next :=
    if rec.hours = 0 then (st.daysWorked, st.total, st.totalExpected, st.totalExtra)
    else (st.daysWorked + 1, st.total + rec.hours, st.totalExpected + expected,
          st.totalExtra + extra)
  let picture2 :=
    if rec.hours = 0 then show_balance rec.day 0 else show_balance rec.day next.2.2.2
  let marker : Char :=
    if rec.day = "Mon" then '-' else if rec.day = "Sat" ∨ rec.day = "Sun" then '~' else ' '
  let shownBalance := if wg then some (if rec.hours = 0 then 0 else next.2.2.2) else none
  let wk :=
    if wg then (st.weekTotal, (none : Option Rat))
    else
      let wt := st.weekTotal + rec.hours
      if rec.day = "Fri" then ((0 : Rat), some wt) else (wt, none)
  let commentShown := if sc ∧ rec.comment ≠ "" then some rec.comment else none
  let first := match st.first with | none => some rec.date | some f => some f
  (⟨some rec.date.year, next.2.1, next.2.2.1, next.2.2.2, first, some rec.date,
    next.1, wk.1⟩,
   ⟨yearLine, marker, rec.day, rec.date.day, monthName rec.date.month, rec.hours,
    picture1, shownBalance, picture2, wk.2, commentShown⟩)

/-- Run errors of a whole pass: a propagated `GiveUp`, or the unhandled
`AttributeError` from `first.toordinal()` when `first is None`. -/
inductive RunErr
  | giveUp (e : Err)
  | attrCrash
deriving DecidableEq

/-- The summary block (values printed after the loop).  `projectPart` is
`(fraction-of-project, project_days, hours_left, full_days_left)`, present
only when `self.project_days` is truthy. -/
structure Summary where
  first : PyDate
  last : PyDate
  elapsed : Int
  weeks : Int
  total : Rat
  daysWorked : Nat
  virtualDays : Rat
  projectPart : Option (Rat × Int × Rat × Rat)
  hoursPerWeek : Rat
  totalExpected : Rat
  totalExtra : Rat
  balanceDays : Option Rat
deriving DecidableEq

/-- Lines 713–756 of the source: the summary computation.  With no records
`first`/`last` are `None` and `first.toordinal()` raises `AttributeError`
(modelled as `RunErr.attrCrash`); the balance is additionally shown in days
exactly when `total_extra > 7.5`. -/
def mkSummary (r : Report) (st : LoopSt) : Except RunErr Summary :=
  match st.first, st.last with
  | some f, some l =>
    let elapsed : Int := l.toOrd - f.toOrd + 1
    let weeks := Int.fdiv elapsed 7
    let virtualDays := st.total / (7.5 : Rat)
    let projectPart :=
      match r.projectDays with
      | some pd =>
        if pd ≠ 0 then
          some (st.total / ((pd : Rat) * 7.5), pd, (pd : Rat) * 7.5 - st.total,
                (pd : Rat) - virtualDays)
        else none
      | none => none
    .ok ⟨f, l, elapsed, weeks, st.total, st.daysWorked, virtualDays, projectPart,
         r.sumHours, st.totalExpected, st.totalExtra,
         if (7.5 : Rat) < st.totalExtra then some (st.totalExtra / 7.5) else none⟩
  | _, _ => .error .attrCrash

/-- The record-consuming loop of `Report.report_lines`, driving the parser
one line at a time (the generator is consumed lazily, so each record's row
uses the configuration as of its own line). -/
def reportGo (wg sc : Bool) :
    Report → Nat → Option HRec → LoopSt → List String →
    Except RunErr (Report × LoopSt × List Row)
  | r, _, _, st, [] => .ok (r, st, [])
  | r, n, prev, st, line :: rest =>
    match parse_line r line with
    | .error e => .error (.giveUp (.inLine (n + 1) e))
    | .ok (r2, none) => reportGo wg sc r2 (n + 1) prev st rest
    | .ok (r2, some rec) =>
      match prev with
      | some p =>
        if recLt rec p then .error (.giveUp (.outOfOrder rec.date p.date))
        else
          let pr := stepRecord r2 wg sc st rec
          (reportGo wg sc r2 (n + 1) (some rec) pr.1 rest).map
            (fun o => (o.1, o.2.1, pr.2 :: o.2.2))
      | none =>
        let pr := stepRecord r2 wg sc st rec
        (reportGo wg sc r2 (n + 1) (some rec) pr.1 rest).map
          (fun o => (o.1, o.2.1, pr.2 :: o.2.2))

structure Output where
  rows : List Row
  summary : Summary
deriving DecidableEq

/-- The `ok` payload of an `Except`, if any. -/
def exOk? : Except ε α → Option α
  | .ok a => some a
  | .error _ => none

/-- Embeds `Report.report_lines`: rows for every record then the summary block.
(On an error nothing past the failing line matters for the claims; rows
already printed before a failure are not retained here.) -/
def reportRun (r : Report) (lines : List String) (wg sc : Bool) : Except RunErr Output :=
  match reportGo wg sc r 0 none initLoopSt lines with
  | .error e => .error e
  | .ok (rf, st, rows) =>
    match mkSummary rf st with
    | .error e => .error e
    | .ok s => .ok ⟨rows, s⟩

end ReportHours

-- Validation of the embedding against the source's own doctests.
example : ReportHours.PyDate.weekday ⟨2013, 9, 12⟩ = 3 := by decide
example : ReportHours.PyDate.weekday ⟨2003, 9, 3⟩ = 2 := by decide
example : ReportHours.pyInt "  12 " = some 12 := by decide
example : ReportHours.pyFloat "7.5" = some (15/2 : Rat) := by with_unfolding_all decide
example : ReportHours.pyFloat "-2.25" = some (-(9/4) : Rat) := by with_unfolding_all decide
example : ReportHours.pyFloat "aagh" = none := by decide
example : ReportHours.splitOnCs ['-','-'] "a--b--c".data = ["a".data, "b".data, "c".data] := by decide
example : ReportHours.wsTokens " Wed 3 Sep  19.0 ".data = ["Wed".data, "3".data, "Sep".data, "19.0".data] := by decide
example : ReportHours.pyCapitalize "tUe" = "Tue" := by decide
example : ReportHours.pyTrunc (-(7/2) : Rat) = -3 := by with_unfolding_all decide
-- doctest: >>> r.parse_hours_line('Thu 12 Sep 8.0  -- a comment')  (year 2013)
example : ReportHours.parse_hours_line (ReportHours.initReport 2013) "Thu 12 Sep 8.0  -- a comment"
    = .ok ⟨⟨2013, 9, 12⟩, "Thu", 8, "a comment"⟩ := by with_unfolding_all decide
-- doctest: >>> r.parse_hours_line(' Wed 3 Sep  19.0   --  we  trim  edge  whitespace') (year 2003)
example : ReportHours.parse_hours_line (ReportHours.initReport 2003) " Wed 3 Sep  19.0   --  we  trim  edge  whitespace"
    = .ok ⟨⟨2003, 9, 3⟩, "Wed", 19, "we  trim  edge  whitespace"⟩ := by with_unfolding_all decide
-- doctest: for 09:00..12:00 12:30..17:30 == 8.0
example : ReportHours.parse_hours_line (ReportHours.initReport 2003) "Thu 4 Sep for 09:00..12:00 12:30..17:30 -- time spans"
    = .ok ⟨⟨2003, 9, 4⟩, "Thu", 8, "time spans"⟩ := by with_unfolding_all decide
-- doctest: for 8:30..9:30 == 1.0
example : ReportHours.parse_hours_line (ReportHours.initReport 2003) "Fri 12 Sep for 8:30..9:30 -- 8:30, not 08:30"
    = .ok ⟨⟨2003, 9, 12⟩, "Fri", 1, "8:30, not 08:30"⟩ := by with_unfolding_all decide
-- doctest: holiday == 7.5
example : ReportHours.parse_hours_line (ReportHours.initReport 2003) "Fri 12 Sep holiday -- today"
    = .ok ⟨⟨2003, 9, 12⟩, "Fri", 15/2, "today"⟩ := by with_unfolding_all decide
-- doctest: wrong day of week (2013-09-12 is Thu)
example : ReportHours.parse_hours_line (ReportHours.initReport 2013) "Fri 12 Sep 9.0 -- wrong day of week"
    = .error (.calendarMismatch 12 "Sep" 2013 "Thu" "Fri") := by with_unfolding_all decide
-- doctest: 'Something something something' is a format error
example : ReportHours.parse_hours_line (ReportHours.initReport 2013) "Something something something -- fred"
    = .error (.badFormat "Something something something") := by with_unfolding_all decide
-- doctest: backwards timespan
example : ReportHours.parse_hours_line (ReportHours.initReport 2013) "Thu 12 Sep for 09:30..08:30 -- backwards"
    = .error (.notPositive "09:30..08:30") := by with_unfolding_all decide
-- doctest: 9:30..12:30..13:00 is malformed
example : ReportHours.parse_hours_line (ReportHours.initReport 2013) "Thu 12 Sep for 9:30..12:30..13:00 -- too many"
    = .error (.badTimespan "9:30..12:30..13:00") := by with_unfolding_all decide
-- set_hours doctest
example : ReportHours.set_hours (ReportHours.initReport 2013) "Mon=6.0, tue=7.5, WED=7.5,thu=5.5, sat=1.0, fri=3.0,sun=4.0"
    = .ok ⟨6, 15/2, 15/2, 11/2, 3, 1, 4, 2013, none⟩ := by with_unfolding_all decide
example : ReportHours.set_hours (ReportHours.initReport 2013) "mon=9 tue=8"
    = .error (.missingComma "mon=9 tue=8") := by with_unfolding_all decide
-- parse_lines doctest: out-of-order stream
example : ReportHours.parse_lines (ReportHours.initReport 2025)
    [":year 2013", "Thu 12 Sep 8.0  -- a comment", ":year 2003", "Wed 3 Sep  19.0  -- a comment"]
    = .error (.outOfOrder ⟨2003, 9, 3⟩ ⟨2013, 9, 12⟩) := by with_unfolding_all decide
-- parse_lines doctest: good stream
example : ReportHours.parse_lines (ReportHours.initReport 2025)
    ["# a comment", "", ":expect Mon=7.0", ":year 2003", "Wed 3 Sep  19.0  -- a comment",
     ":year 2013", "Thu 12 Sep 8.0  -- a comment"]
    = .ok [⟨⟨2003, 9, 3⟩, "Wed", 19, "a comment"⟩, ⟨⟨2013, 9, 12⟩, "Thu", 8, "a comment"⟩] := by
  with_unfolding_all decide
-- report_lines doctest: bars of the first and last rows
example : ReportHours.show_hours ⟨6, 6, 6, 6, 6, 0, 0, 2013, some 20⟩ "Mon" 4
    = "********````          |" := by with_unfolding_all decide
example : ReportHours.show_balance "Mon" (-2)
    = "    ----:                              " := by with_unfolding_all decide
example : ReportHours.show_balance "Fri" 0
    = "        :                              " := by with_unfolding_all decide
-- report_lines doctest: summary numbers of the worked example
example :
    (ReportHours.exOk? (ReportHours.reportRun (ReportHours.initReport 2025)
      ["# a more realistic example",
       ":expect Mon=6.0, Tue=6.0, Wed=6.0, Thu=6.0, Fri=6.0",
       ":days 20", ":year 2013",
       "Mon  2 Sep  4.0     -- first day",
       "Tue  3 Sep  6.5     -- initial discussions, etc.",
       "Wed  4 Sep  8.5     -- my laptop, exploring, notebook",
       "Thu  5 Sep  6.5",
       "Fri  6 Sep  8.5     -- setting up the two computers",
       "Mon  9 Sep  7.0     -- inc. Kynesim lunch",
       "Tue 10 Sep  7.5",
       "Wed 11 Sep  for 9:00..12:00  12:30..17:30 # i.e., 3 + 5 = 8",
       "Thu 12 Sep  for 9:30..12:00  12:30..15:30 # i.e., 2.5 + 3 = 5.5",
       "Fri 13 Sep  0.0     -- not at this work today"] true false)).map
      (fun out => (out.summary.total, out.summary.daysWorked, out.summary.totalExpected,
        out.summary.totalExtra, out.summary.balanceDays, out.summary.weeks,
        out.summary.elapsed, out.summary.projectPart, out.summary.hoursPerWeek,
        out.rows.map ReportHours.Row.hours))
    = some (62, 9, 54, 8, some (16/15), 1, 12, some (31/75, 20, 88, 176/15), 30,
        [4, 13/2, 17/2, 13/2, 17/2, 7, 15/2, 8, 11/2, 0]) := by
  with_unfolding_all rfl

namespace ReportHours

/-! ## Structural lemmas about `parse_hours_line` -/

/-- The header of a record line resolves: the spec tokens have the 4-token
shape (with extra tokens only for `for`/`holiday`), the day and month
mnemonics are recognised, the day-of-month is an integer, and
`datetime.date` accepts the components. -/
def headerResolves (r : Report) (line : String) (dn dom mon t4 : String)
    (rest : List String) (di : Int) (date : PyDate) : Prop :=
  recTokens line = dn :: dom :: mon :: t4 :: rest ∧
  (rest = [] ∨ t4 = "for" ∨ t4 = "holiday") ∧
  isDayName dn = true ∧ isMonthName mon = true ∧
  pyInt dom = some di ∧
  mkDate r.year (monthNum (pyCapitalize mon)) di = some date

/-- With a resolved header, `parse_hours_line` is the weekday check
followed by hours resolution. -/
theorem parse_hours_line_header {r : Report} {line : String} {dn dom mon t4 : String}
    {rest : List String} {di : Int} {date : PyDate}
    (h : headerResolves r line dn dom mon t4 rest di date) :
    parse_hours_line r line =
      if dayAt date.weekday ≠ pyCapitalize dn then
        .error (.calendarMismatch di (pyCapitalize mon) r.year
          (dayAt date.weekday) (pyCapitalize dn))
      else
        (resolveHours r (pyCapitalize dn) t4 rest).map
          (fun hh => ⟨date, pyCapitalize dn, hh, commentOf line⟩) := by
  obtain ⟨htok, h4, hd, hm, hdi, hdate⟩ := h
  have hg : ¬ (rest ≠ [] ∧ t4 ≠ "for" ∧ t4 ≠ "holiday") := by
    rcases h4 with h | h | h <;> simp [h]
  unfold parse_hours_line parseHoursBody
  rw [htok]
  simp only [hg, hd, hm, hdi, hdate, if_false, if_neg hg]
  simp [Except.map]

end ReportHours

namespace ReportHours

/-! ## C1 — weekday consistency -/

/-- C1: for a record line whose day name, day-of-month and month resolve
(known mnemonics, integer day, constructible date), parsing succeeds only
if the weekday computed from the date built from the current year, month
and day-of-month equals the canonical supplied day name; on mismatch it
fails with the fatal error that names the correct day name. -/
theorem c1_weekday_must_match (r : Report) (line : String)
    (dn dom mon t4 : String) (rest : List String) (di : Int) (date : PyDate)
    (h : headerResolves r line dn dom mon t4 rest di date) :
    (∀ rec, parse_hours_line r line = .ok rec →
        rec.day = pyCapitalize dn ∧ rec.date = date ∧ dayAt date.weekday = rec.day) ∧
    (dayAt date.weekday ≠ pyCapitalize dn →
      parse_hours_line r line =
        .error (.calendarMismatch di (pyCapitalize mon) r.year
          (dayAt date.weekday) (pyCapitalize dn))) := by
  have hA := parse_hours_line_header h
  constructor
  · intro rec hok
    rw [hA] at hok
    by_cases hw : dayAt date.weekday = pyCapitalize dn
    · rw [if_neg (by simpa using hw)] at hok
      cases hres : resolveHours r (pyCapitalize dn) t4 rest with
      | error e => rw [hres] at hok; cases hok
      | ok v =>
        rw [hres] at hok
        cases hok
        exact ⟨rfl, rfl, by simpa using hw⟩
    · rw [if_pos hw] at hok
      cases hok
  · intro hw
    rw [hA, if_pos hw]

/-- Concrete instance of C1: 2013-09-12 is a Thursday, so supplying `Fri`
fails with an error naming `Thu`. -/
theorem c1_weekday_must_match_witness :
    parse_hours_line (initReport 2013) "Fri 12 Sep 9.0 -- wrong day of week"
      = .error (.calendarMismatch 12 "Sep" 2013 (dayAt (PyDate.weekday ⟨2013, 9, 12⟩)) "Fri") ∧
    dayAt (PyDate.weekday ⟨2013, 9, 12⟩) = "Thu" := by
  refine ⟨?_, by with_unfolding_all decide⟩
  have h := (c1_weekday_must_match (initReport 2013) "Fri 12 Sep 9.0 -- wrong day of week"
      "Fri" "12" "Sep" "9.0" [] 12 ⟨2013, 9, 12⟩
      ⟨by with_unfolding_all decide, Or.inl rfl, by with_unfolding_all decide,
       by with_unfolding_all decide, by with_unfolding_all decide,
       by with_unfolding_all decide⟩).2 (by with_unfolding_all decide)
  with_unfolding_all exact h

end ReportHours

namespace ReportHours

/-! ## Span-summing lemmas, C4 and C5 -/

/-- When every span is accepted, the span loop returns the running total
plus the sum of the per-span hours. -/
theorem sumSpans_ok_of_all (spans : List String)
    (hok : ∀ s ∈ spans, ∃ h, procSpan s = .ok h) :
    ∀ acc, sumSpans spans acc = .ok (acc + (spans.map spanHoursD).sum) := by
  induction spans with
  | nil => intro acc; simp [sumSpans]
  | cons s rest ih =>
    intro acc
    obtain ⟨h, hs⟩ := hok s (by simp)
    have hrest : ∀ x ∈ rest, ∃ hh, procSpan x = .ok hh := fun x hx => hok x (by simp [hx])
    simp [sumSpans, hs, spanHoursD, ih hrest, add_assoc]

/-- A rejected span aborts the loop with its error, past any prefix of
accepted spans. -/
theorem sumSpans_err_after (pre : List String)
    (hpre : ∀ s ∈ pre, ∃ h, procSpan s = .ok h)
    (span : String) (rest : List String) (e : Err)
    (hspan : procSpan span = .error e) :
    ∀ acc, sumSpans (pre ++ span :: rest) acc = .error e := by
  induction pre with
  | nil => intro acc; simp [sumSpans, hspan]
  | cons s pre2 ih =>
    intro acc
    obtain ⟨h, hs⟩ := hpre s (by simp)
    have hp2 : ∀ x ∈ pre2, ∃ hh, procSpan x = .ok hh := fun x hx => hpre x (by simp [hx])
    simp [sumSpans, hs, ih hp2]

/-- C4 (amended): for a `for` record whose timespans are all accepted, the
hours are the sum over the timespans of the duration `(end − start)`
*reduced modulo 24 hours* (the code reads `timedelta.seconds`), and this
value is invariant under any permutation of the timespans; in particular
`for 09:00..12:00 12:30..17:30` yields 8.0 and
`for 9:30..12:00 12:30..15:30` yields 5.5. -/
theorem c4_timespans_additive_permutation (spans : List String)
    (hok : ∀ s ∈ spans, ∃ h, procSpan s = .ok h) :
    sumSpans spans 0 = .ok ((spans.map spanHoursD).sum) ∧
    (∀ spans2, spans2.Perm spans → sumSpans spans2 0 = .ok ((spans.map spanHoursD).sum)) ∧
    parse_hours_line (initReport 2003) "Thu 4 Sep for 09:00..12:00 12:30..17:30"
      = .ok ⟨⟨2003, 9, 4⟩, "Thu", 8, ""⟩ ∧
    parse_hours_line (initReport 2013) "Thu 12 Sep for 9:30..12:00 12:30..15:30"
      = .ok ⟨⟨2013, 9, 12⟩, "Thu", 11/2, ""⟩ := by
  refine ⟨?_, ?_, by with_unfolding_all decide, by with_unfolding_all decide⟩
  · simpa using sumSpans_ok_of_all spans hok 0
  · intro spans2 hp
    have hok2 : ∀ s ∈ spans2, ∃ h, procSpan s = .ok h := fun s hs => hok s (hp.mem_iff.mp hs)
    rw [sumSpans_ok_of_all spans2 hok2 0]
    have hsum : (spans2.map spanHoursD).sum = (spans.map spanHoursD).sum :=
      (hp.map spanHoursD).sum_eq
    rw [zero_add, hsum]

/-- Concrete instance of C4: 3 + 5 = 8 hours, in either span order. -/
theorem c4_timespans_additive_permutation_witness :
    sumSpans ["09:00..12:00", "12:30..17:30"] 0
      = .ok ((["09:00..12:00", "12:30..17:30"].map spanHoursD).sum) ∧
    sumSpans ["12:30..17:30", "09:00..12:00"] 0
      = .ok ((["09:00..12:00", "12:30..17:30"].map spanHoursD).sum) ∧
    (["09:00..12:00", "12:30..17:30"].map spanHoursD).sum = 8 := by
  have hok : ∀ s ∈ ["09:00..12:00", "12:30..17:30"], ∃ h, procSpan s = .ok h := by
    intro s hs
    rcases List.mem_cons.mp hs with rfl | hs2
    · exact ⟨3, by with_unfolding_all decide⟩
    · rcases List.mem_cons.mp hs2 with rfl | hs3
      · exact ⟨5, by with_unfolding_all decide⟩
      · cases hs3
  have h := c4_timespans_additive_permutation ["09:00..12:00", "12:30..17:30"] hok
  exact ⟨h.1, h.2.1 _ (List.Perm.swap "09:00..12:00" "12:30..17:30" []),
    by with_unfolding_all decide⟩

/-- C5: a timespan matching the pattern whose start is at or after its end
always fails as "not a positive timespan", and a `for` record containing it
(after any accepted spans) has its hours resolution fail the same way. -/
theorem c5_nonpositive_timespan (span g0 g1 g2 g3 : String)
    (hm : matchTimespan span = some (g0, g1, g2, g3))
    (h0 m0 h1 m1 : Int)
    (hg0 : pyInt g0 = some h0) (hg1 : pyInt g1 = some m0)
    (hg2 : pyInt g2 = some h1) (hg3 : pyInt g3 = some m1)
    (hge : h1 * 3600 + m1 * 60 ≤ h0 * 3600 + m0 * 60)
    (pre rest : List String) (hpre : ∀ s ∈ pre, ∃ h, procSpan s = .ok h) :
    procSpan span = .error (.notPositive span) ∧
    ∀ (r : Report) (dayC : String),
      resolveHours r dayC "for" (pre ++ span :: rest) = .error (.notPositive span) := by
  have hps : procSpan span = .error (.notPositive span) := by
    unfold procSpan
    simp only [hm, hg0, hg1, hg2, hg3]
    simp only [if_pos hge]
  refine ⟨hps, fun r dayC => ?_⟩
  have : resolveHours r dayC "for" (pre ++ span :: rest)
      = sumSpans (pre ++ span :: rest) 0 := by
    simp [resolveHours]
  rw [this, sumSpans_err_after pre hpre span rest _ hps 0]

/-- Concrete instances of C5: `09:30..08:30` (backwards) and
`09:30..09:30` (zero length) both fail as non-positive. -/
theorem c5_nonpositive_timespan_witness :
    procSpan "09:30..08:30" = .error (.notPositive "09:30..08:30") ∧
    procSpan "09:30..09:30" = .error (.notPositive "09:30..09:30") ∧
    resolveHours (initReport 2013) "Thu" "for" ["09:30..08:30"]
      = .error (.notPositive "09:30..08:30") := by
  have hnil : ∀ s ∈ ([] : List String), ∃ h, procSpan s = .ok h := by
    intro s hs; cases hs
  have h1 := c5_nonpositive_timespan "09:30..08:30" "09" "30" "08" "30"
    (by with_unfolding_all decide) 9 30 8 30
    (by with_unfolding_all decide) (by with_unfolding_all decide)
    (by with_unfolding_all decide) (by with_unfolding_all decide)
    (by decide) [] [] hnil
  have h2 := c5_nonpositive_timespan "09:30..09:30" "09" "30" "09" "30"
    (by with_unfolding_all decide) 9 30 9 30
    (by with_unfolding_all decide) (by with_unfolding_all decide)
    (by with_unfolding_all decide) (by with_unfolding_all decide)
    (by decide) [] [] hnil
  exact ⟨h1.1, h2.1, h1.2 (initReport 2013) "Thu"⟩

/-! ## C6 — holiday/pubhol/sick hours are read at parse time -/

/-- C6: a record whose 4th token is `holiday`, `pubhol` or `sick` gets the
expected hours configured for its day *at the moment the line is parsed*;
a later `:expect` directive leaves the already-yielded record unchanged
(the stream below still yields 7.5 for the holiday even though `Thu` is
set to 0 afterwards). -/
theorem c6_holiday_uses_parse_time_config (r : Report) (line : String)
    (dn dom mon t4 : String) (rest : List String) (di : Int) (date : PyDate)
    (h : headerResolves r line dn dom mon t4 rest di date)
    (h4 : t4 = "holiday" ∨ t4 = "pubhol" ∨ t4 = "sick")
    (rec : HRec) (hok : parse_hours_line r line = .ok rec) :
    rec.hours = r.getHours rec.day ∧
    parse_lines (initReport 2025) [":year 2013", "Thu 12 Sep holiday", ":expect Thu=0.0"]
      = .ok [⟨⟨2013, 9, 12⟩, "Thu", 15/2, ""⟩] := by
  refine ⟨?_, by with_unfolding_all decide⟩
  have hA := parse_hours_line_header h
  rw [hA] at hok
  by_cases hw : dayAt date.weekday = pyCapitalize dn
  · rw [if_neg (by simpa using hw)] at hok
    have hres : resolveHours r (pyCapitalize dn) t4 rest
        = .ok (r.getHours (pyCapitalize dn)) := by
      rcases h4 with h4 | h4 | h4 <;> (subst h4; simp [resolveHours])
    rw [hres] at hok
    cases hok
    rfl
  · rw [if_pos (by simpa using hw)] at hok
    cases hok

/-- Concrete instance of C6: `Fri 12 Sep holiday` in 2003 yields 7.5
(the configured Friday hours), and the later-`:expect` stream is unmoved. -/
theorem c6_holiday_uses_parse_time_config_witness :
    (15/2 : Rat) = (initReport 2003).getHours "Fri" ∧
    parse_lines (initReport 2025) [":year 2013", "Thu 12 Sep holiday", ":expect Thu=0.0"]
      = .ok [⟨⟨2013, 9, 12⟩, "Thu", 15/2, ""⟩] := by
  have h := c6_holiday_uses_parse_time_config (initReport 2003)
    "Fri 12 Sep holiday -- today" "Fri" "12" "Sep" "holiday" [] 12 ⟨2003, 9, 12⟩
    ⟨by with_unfolding_all decide, Or.inr (Or.inr rfl), by with_unfolding_all decide,
     by with_unfolding_all decide, by with_unfolding_all decide,
     by with_unfolding_all decide⟩
    (Or.inl rfl) ⟨⟨2003, 9, 12⟩, "Fri", 15/2, "today"⟩ (by with_unfolding_all decide)
  exact ⟨h.1, h.2⟩

end ReportHours

namespace ReportHours

/-! ## C7 — the token-count check -/

/-- Span processing never raises the record-format error. -/
theorem procSpan_no_badFormat (s d : String) : procSpan s ≠ .error (.badFormat d) := by
  unfold procSpan
  cases hm : matchTimespan s with
  | none => simp
  | some g =>
    obtain ⟨g0, g1, g2, g3⟩ := g
    cases h0 : pyInt g0 <;> cases h1 : pyInt g1 <;>
      cases h2 : pyInt g2 <;> cases h3 : pyInt g3 <;>
      simp only [h0, h1, h2, h3] <;> (try split) <;> simp

/-- The span loop never raises the record-format error. -/
theorem sumSpans_no_badFormat (l : List String) :
    ∀ acc d, sumSpans l acc ≠ .error (.badFormat d) := by
  induction l with
  | nil => intro acc d; simp [sumSpans]
  | cons s rest ih =>
    intro acc d
    unfold sumSpans
    cases hs : procSpan s with
    | error e =>
      intro hcontra
      simp only [hs] at hcontra
      cases hcontra
      exact procSpan_no_badFormat s d hs
    | ok h => simpa using ih (acc + h) d

/-- Hours resolution never raises the record-format error. -/
theorem resolveHours_no_badFormat (r : Report) (dayC t4 : String)
    (spans : List String) (d : String) :
    resolveHours r dayC t4 spans ≠ .error (.badFormat d) := by
  unfold resolveHours
  split
  · exact sumSpans_no_badFormat spans 0 d
  · split
    · simp
    · cases pyFloat t4 <;> simp

/-- Everything after the token-count check never raises the record-format
error. -/
theorem parseHoursBody_no_badFormat (r : Report) (line : String)
    (dn dom mon t4 : String) (rest : List String) (d : String) :
    parseHoursBody r line dn dom mon t4 rest ≠ .error (.badFormat d) := by
  unfold parseHoursBody
  split
  · simp
  · split
    · simp
    · cases pyInt dom with
      | none => simp
      | some di =>
        simp only []
        cases mkDate r.year (monthNum (pyCapitalize mon)) di with
        | none => simp
        | some date =>
          simp only []
          split
          · simp
          · cases hres : resolveHours r (pyCapitalize dn) t4 rest with
            | error e =>
              simp only [hres, Except.map]
              intro hcontra
              cases hcontra
              exact resolveHours_no_badFormat r (pyCapitalize dn) t4 rest d hres
            | ok v => simp [hres, Except.map]

/-- C7 (amended): splitting off the `--` comment and tokenising, the parse
fails with the fatal format error naming the data text exactly when there
are fewer than 4 tokens, or when there are 5 or more tokens and the 4th is
not one of `for`, `holiday` — so extra tokens after `pubhol` or `sick`
*do* trigger the format error. -/
theorem c7_token_count_check (r : Report) (line : String) :
    parse_hours_line r line = .error (.badFormat (recData line)) ↔
      ((recTokens line).length < 4 ∨
       (4 < (recTokens line).length ∧ (recTokens line).getD 3 "" ≠ "for" ∧
        (recTokens line).getD 3 "" ≠ "holiday")) := by
  rcases hsp : recTokens line with _ | ⟨dn, _ | ⟨dom, _ | ⟨mon, _ | ⟨t4, rest⟩⟩⟩⟩
  · unfold parse_hours_line; rw [hsp]; simp
  · unfold parse_hours_line; rw [hsp]; simp
  · unfold parse_hours_line; rw [hsp]; simp
  · unfold parse_hours_line; rw [hsp]; simp
  · have hL : parse_hours_line r line =
        (if rest ≠ [] ∧ t4 ≠ "for" ∧ t4 ≠ "holiday" then
          .error (.badFormat (recData line))
        else parseHoursBody r line dn dom mon t4 rest) := by
      unfold parse_hours_line
      rw [hsp]
    rw [hL]
    simp only [List.length_cons, List.getD_cons_succ, List.getD_cons_zero]
    by_cases hc : rest ≠ [] ∧ t4 ≠ "for" ∧ t4 ≠ "holiday"
    · rw [if_pos hc]
      constructor
      · intro _
        refine Or.inr ⟨?_, hc.2.1, hc.2.2⟩
        have h0 : 0 < rest.length := List.length_pos.mpr hc.1
        omega
      · intro _; rfl
    · rw [if_neg hc]
      constructor
      · intro hcontra
        exact absurd hcontra (parseHoursBody_no_badFormat r line dn dom mon t4 rest _)
      · intro hr
        exfalso
        apply hc
        rcases hr with hlen | ⟨hlen, hfor, hhol⟩
        · omega
        · exact ⟨by intro h0; subst h0; simp at hlen, hfor, hhol⟩

/-- Counterexample to C7 as stated: a `pubhol` record with a 5th token is
rejected by the token-count check (the accepted set is only
`('for', 'holiday')`), though the claim says it should pass that check. -/
theorem c7_token_count_check_counterexample :
    parse_hours_line (initReport 2013) "Thu 12 Sep pubhol x"
      = .error (.badFormat "Thu 12 Sep pubhol x") ∧
    (recTokens "Thu 12 Sep pubhol x").getD 3 "" = "pubhol" ∧
    4 < (recTokens "Thu 12 Sep pubhol x").length := by
  refine ⟨by with_unfolding_all decide, by with_unfolding_all decide,
    by with_unfolding_all decide⟩

end ReportHours

namespace ReportHours

/-! ## C3 — stream ordering -/

/-- When every line parses, the order-checking generator yields all records
unless some adjacent pair of yielded tuples decreases, in which case it
raises `outOfOrder` on the first such pair's dates. -/
theorem parseLinesGo_spec :
    ∀ (lines : List String) (r rf : Report) (recs : List HRec) (n : Nat) (prev : Option HRec),
      parseAllRecs r lines = .ok (rf, recs) →
      parseLinesGo r n prev lines =
        (match firstDescent prev recs with
         | some (a, b) => .error (.outOfOrder a.date b.date)
         | none => .ok recs) := by
  intro lines
  induction lines with
  | nil =>
    intro r rf recs n prev hall
    unfold parseAllRecs at hall
    cases hall
    simp [parseLinesGo, firstDescent]
  | cons line rest ih =>
    intro r rf recs n prev hall
    unfold parseAllRecs at hall
    unfold parseLinesGo
    cases hpl : parse_line r line with
    | error e => rw [hpl] at hall; cases hall
    | ok p =>
      obtain ⟨r2, orec⟩ := p
      rw [hpl] at hall
      cases orec with
      | none =>
        simp only [] at hall ⊢
        exact ih r2 rf recs (n + 1) prev hall
      | some rec =>
        simp only [] at hall ⊢
        cases hrest : parseAllRecs r2 rest with
        | error e => rw [hrest] at hall; cases hall
        | ok q =>
          obtain ⟨rf2, recs2⟩ := q
          rw [hrest] at hall
          simp only [Except.map] at hall
          cases hall
          have hihr := ih r2 _ _ (n + 1) (some rec) hrest
          cases prev with
          | none =>
            simp only [firstDescent]
            rw [hihr]
            cases hfd : firstDescent (some rec) recs2 with
            | none => simp [Except.map]
            | some ab => simp [Except.map]
          | some p0 =>
            simp only [firstDescent]
            by_cases hlt : recLt rec p0
            · rw [if_pos hlt, if_pos hlt]
            · rw [if_neg hlt, if_neg hlt, hihr]
              cases hfd : firstDescent (some rec) recs2 with
              | none => simp [Except.map]
              | some ab => simp [Except.map]

/-- C3 (amended): over a stream whose lines all parse, `parse_lines` fails
with the out-of-order error — citing the offending record's date and the
previous record's date — iff some record's full tuple
`(date, day, hours, comment)` lexicographically precedes the immediately
previous record's tuple (the code compares whole tuples, not dates); it
yields all records otherwise.  Two successive records with equal dates are
therefore accepted only when day, hours and comment do not decrease. -/
theorem c3_out_of_order_is_tuple_order (r rf : Report) (lines : List String)
    (recs : List HRec) (hall : parseAllRecs r lines = .ok (rf, recs)) :
    parse_lines r lines =
      (match firstDescent none recs with
       | some (a, b) => .error (.outOfOrder a.date b.date)
       | none => .ok recs) :=
  parseLinesGo_spec lines r rf recs 0 none hall

/-- Concrete instance of C3 (the doctest): 2003-09-03 arriving after
2013-09-12 fails citing both dates. -/
theorem c3_out_of_order_is_tuple_order_witness :
    parse_lines (initReport 2025)
      [":year 2013", "Thu 12 Sep 8.0", ":year 2003", "Wed 3 Sep 19.0"]
      = .error (.outOfOrder ⟨2003, 9, 3⟩ ⟨2013, 9, 12⟩) := by
  have h := c3_out_of_order_is_tuple_order (initReport 2025)
    ⟨7.5, 7.5, 7.5, 7.5, 7.5, 0, 0, 2003, none⟩
    [":year 2013", "Thu 12 Sep 8.0", ":year 2003", "Wed 3 Sep 19.0"]
    [⟨⟨2013, 9, 12⟩, "Thu", 8, ""⟩, ⟨⟨2003, 9, 3⟩, "Wed", 19, ""⟩]
    (by with_unfolding_all decide)
  rw [h]
  with_unfolding_all rfl

/-- Counterexample to C3 as stated: two records with *equal* dates but
decreasing hours are rejected as out of order (the tuple comparison reaches
the hours), even though no record's date strictly precedes its
predecessor's. -/
theorem c3_out_of_order_is_tuple_order_counterexample :
    parse_lines (initReport 2025)
      [":year 2013", "Thu 12 Sep 8.0 -- b", "Thu 12 Sep 5.0 -- a"]
      = .error (.outOfOrder ⟨2013, 9, 12⟩ ⟨2013, 9, 12⟩) ∧
    dateLt ⟨2013, 9, 12⟩ ⟨2013, 9, 12⟩ = false :=
  ⟨by with_unfolding_all decide, by decide⟩

end ReportHours

namespace ReportHours

/-! ## C2 — zero-hours rows -/

/-- C2 (amended): a zero-hours record leaves every running total (worked
hours, expected hours, cumulative balance, days worked) unchanged, and
renders its balance bar at balance *zero* — not at the previous cumulative
balance. -/
theorem c2_zero_hours_row (cfg : Report) (wg sc : Bool) (st : LoopSt) (rec : HRec)
    (h0 : rec.hours = 0) :
    (stepRecord cfg wg sc st rec).1.total = st.total ∧
    (stepRecord cfg wg sc st rec).1.totalExpected = st.totalExpected ∧
    (stepRecord cfg wg sc st rec).1.totalExtra = st.totalExtra ∧
    (stepRecord cfg wg sc st rec).1.daysWorked = st.daysWorked ∧
    (stepRecord cfg wg sc st rec).2.picture2 = show_balance rec.day 0 := by
  unfold stepRecord
  simp [h0]

/-- Concrete instance of C2: a zero-hours Tuesday after a deficit Monday
keeps the totals and draws `show_balance "Tue" 0`. -/
theorem c2_zero_hours_row_witness :
    (stepRecord (initReport 2025) true false
        ⟨some 2013, 4, 15/2, -(7/2), some ⟨2013, 9, 2⟩, some ⟨2013, 9, 2⟩, 1, 0⟩
        ⟨⟨2013, 9, 3⟩, "Tue", 0, ""⟩).1.totalExtra = -(7/2) ∧
    (stepRecord (initReport 2025) true false
        ⟨some 2013, 4, 15/2, -(7/2), some ⟨2013, 9, 2⟩, some ⟨2013, 9, 2⟩, 1, 0⟩
        ⟨⟨2013, 9, 3⟩, "Tue", 0, ""⟩).2.picture2 = show_balance "Tue" 0 := by
  have h := c2_zero_hours_row (initReport 2025) true false
    ⟨some 2013, 4, 15/2, -(7/2), some ⟨2013, 9, 2⟩, some ⟨2013, 9, 2⟩, 1, 0⟩
    ⟨⟨2013, 9, 3⟩, "Tue", 0, ""⟩ rfl
  exact ⟨h.2.2.1, h.2.2.2.2⟩

/-- Counterexample to C2 as stated: after a Monday leaving cumulative
balance −3.5, the zero-hours Tuesday's bar is `show_balance "Tue" 0`,
which differs from the bar at the previous cumulative balance −3.5. -/
theorem c2_zero_hours_row_counterexample :
    (exOk? (reportRun (initReport 2025)
        [":year 2013", "Mon 2 Sep 4.0", "Tue 3 Sep 0.0"] true false)).map
        (fun o => o.rows.map Row.picture2)
      = some [show_balance "Mon" (-(7/2)), show_balance "Tue" 0] ∧
    show_balance "Tue" 0 ≠ show_balance "Tue" (-(7/2)) :=
  ⟨by with_unfolding_all rfl, by with_unfolding_all decide⟩

/-! ## C8 — when the balance is also shown in days -/

/-- C8 (amended): the summary expresses the balance additionally in days
exactly when the *signed* balance exceeds 7.5 hours (one nominal day); a
negative balance, whatever its magnitude, is shown in hours only. -/
theorem c8_balance_days_condition (r : Report) (lines : List String) (wg sc : Bool)
    (out : Output) (h : reportRun r lines wg sc = .ok out) :
    out.summary.balanceDays.isSome = true ↔ (7.5 : Rat) < out.summary.totalExtra := by
  unfold reportRun at h
  cases hgo : reportGo wg sc r 0 none initLoopSt lines with
  | error e => rw [hgo] at h; cases h
  | ok t =>
    obtain ⟨rf, st, rows⟩ := t
    rw [hgo] at h
    simp only [] at h
    cases hs : mkSummary rf st with
    | error e => rw [hs] at h; cases h
    | ok s =>
      rw [hs] at h
      cases h
      unfold mkSummary at hs
      cases hfst : st.first <;> cases hlst : st.last <;> simp only [hfst, hlst] at hs
      · cases hs
      · cases hs
      · cases hs
      · cases hs
        simp only []
        split
        · next hgt => simp [hgt]
        · next hle => simp [hle]

/-- The output of a one-record run that works a 16-hour Monday (balance
+8.5), with an inert fallback for the error case that cannot occur. -/
def c8wOut : Output :=
  match reportRun (initReport 2025) [":year 2013", "Mon 2 Sep 16.0"] true false with
  | .ok o => o
  | .error _ => ⟨[], ⟨⟨1, 1, 1⟩, ⟨1, 1, 1⟩, 0, 0, 0, 0, 0, none, 0, 0, 0, none⟩⟩

/-- Concrete instance of C8: one 16-hour Monday leaves balance +8.5, which
exceeds one nominal day, so the summary also shows days. -/
theorem c8_balance_days_condition_witness :
    (c8wOut.summary.balanceDays.isSome = true ↔ (7.5 : Rat) < c8wOut.summary.totalExtra) ∧
    c8wOut.summary.totalExtra = 17/2 ∧
    c8wOut.summary.balanceDays.isSome = true := by
  refine ⟨c8_balance_days_condition (initReport 2025) [":year 2013", "Mon 2 Sep 16.0"]
    true false c8wOut (by with_unfolding_all rfl), by with_unfolding_all rfl,
    by with_unfolding_all rfl⟩

/-- Counterexample to C8 as stated: a balance of −10.0 hours has magnitude
greater than one nominal day, yet the summary shows it in hours only
(`balanceDays = none`), because the code tests `total_extra > 7.5` on the
signed value. -/
theorem c8_balance_days_condition_counterexample :
    (exOk? (reportRun (initReport 2025)
        [":year 2013", "Mon 2 Sep 1.0", "Tue 3 Sep 4.0"] true false)).map
        (fun o => (o.summary.totalExtra, o.summary.balanceDays))
      = some (-10, none) ∧
    (7.5 : Rat) < |(-10 : Rat)| :=
  ⟨by with_unfolding_all rfl, by with_unfolding_all decide⟩

/-! ## C9 — empty streams crash -/

/-- With no yielded records the renderer loop returns its accumulators
unchanged. -/
theorem reportGo_no_records :
    ∀ (lines : List String) (r rf : Report) (n : Nat) (prev : Option HRec)
      (st : LoopSt) (wg sc : Bool),
      parseAllRecs r lines = .ok (rf, []) →
      reportGo wg sc r n prev st lines = .ok (rf, st, []) := by
  intro lines
  induction lines with
  | nil =>
    intro r rf n prev st wg sc hall
    unfold parseAllRecs at hall
    cases hall
    rfl
  | cons line rest ih =>
    intro r rf n prev st wg sc hall
    unfold parseAllRecs at hall
    unfold reportGo
    cases hpl : parse_line r line with
    | error e => rw [hpl] at hall; cases hall
    | ok p =>
      obtain ⟨r2, orec⟩ := p
      rw [hpl] at hall
      cases orec with
      | none =>
        simp only [] at hall ⊢
        exact ih r2 rf (n + 1) prev st wg sc hall
      | some rec =>
        exfalso
        simp only [] at hall
        cases hrest : parseAllRecs r2 rest with
        | error e => rw [hrest] at hall; cases hall
        | ok q => rw [hrest] at hall; simp [Except.map] at hall

/-- C9 (amended): a stream that yields no records at all makes the report
run fail with the *unhandled* `AttributeError` from `first.toordinal()`
(`first` is still `None`), not with an explicit "no records found" fatal
error. -/
theorem c9_empty_stream_crashes (y : Int) (wg sc : Bool) (lines : List String)
    (rf : Report) (hnorec : parseAllRecs (initReport y) lines = .ok (rf, [])) :
    reportRun (initReport y) lines wg sc = .error .attrCrash := by
  unfold reportRun
  rw [reportGo_no_records lines (initReport y) rf 0 none initLoopSt wg sc hnorec]
  rfl

/-- Concrete instance of C9: comment-only and directive lines yield no
records, and the run crashes rather than reporting. -/
theorem c9_empty_stream_crashes_witness :
    reportRun (initReport 2025) ["# only a comment", ":year 2013", ""] true false
      = .error .attrCrash :=
  c9_empty_stream_crashes 2025 true false ["# only a comment", ":year 2013", ""]
    ⟨7.5, 7.5, 7.5, 7.5, 7.5, 0, 0, 2013, none⟩ (by with_unfolding_all decide)

/-- Counterexample to C9 as stated: the empty input stream produces the
modelled unhandled crash, not a `GiveUp`-style explicit error. -/
theorem c9_empty_stream_crashes_counterexample :
    reportRun (initReport 2025) [] true false = .error .attrCrash ∧
    RunErr.attrCrash ≠ RunErr.giveUp (.badFormat "no records found") :=
  ⟨by with_unfolding_all rfl, by simp⟩

end ReportHours

namespace ReportHours

/-! ## C10 — the "is not a valid time" branches are unreachable -/

/-- A digit is not whitespace. -/
theorem not_ws_of_digit (c : Char) (h : c.isDigit = true) : isWs c = false := by
  unfold isWs
  by_contra hw
  simp only [Bool.not_eq_false, Bool.or_eq_true, decide_eq_true_eq] at hw
  rcases hw with ((((h1 | h1) | h1) | h1) | h1) | h1 <;> (subst h1; exact absurd h (by decide))

/-- Whitespace-stripping fixes an all-digit run. -/
theorem dropWhile_ws_digits (g : List Char) (hd : g.all Char.isDigit = true) :
    g.dropWhile isWs = g := by
  cases g with
  | nil => rfl
  | cons c t =>
    simp only [List.all_cons, Bool.and_eq_true] at hd
    simp [List.dropWhile, not_ws_of_digit c hd.1]

theorem stripWs_digits (g : List Char) (hd : g.all Char.isDigit = true) :
    stripWs g = g := by
  have h1 : trimRightWs g = g := by
    unfold trimRightWs
    rw [dropWhile_ws_digits g.reverse (by simpa using hd), List.reverse_reverse]
  unfold stripWs trimLeftWs
  rw [h1]
  exact dropWhile_ws_digits g hd

/-- Python `int()` always succeeds on a non-empty digit run. -/
theorem pyInt_of_digit_run (s : String) (hne : s.data ≠ [])
    (hd : s.data.all Char.isDigit = true) :
    pyInt s = some ((digitsVal s.data : Nat) : Int) := by
  unfold pyInt
  rw [stripWs_digits s.data hd]
  split
  · next ds heq =>
    rw [heq] at hd
    simp only [List.all_cons, Bool.and_eq_true] at hd
    exact absurd hd.1 (by decide)
  · next ds heq =>
    rw [heq] at hd
    simp only [List.all_cons, Bool.and_eq_true] at hd
    exact absurd hd.1 (by decide)
  · unfold natOfDigits
    cases hsd : s.data with
    | nil => exact absurd hsd hne
    | cons c t =>
      rw [hsd] at hd
      simp [hd]

/-- The first component of `spanDigits` is all digits. -/
theorem spanDigits_all_digits : ∀ cs : List Char, (spanDigits cs).1.all Char.isDigit = true := by
  intro cs
  induction cs with
  | nil => simp [spanDigits]
  | cons c rest ih =>
    unfold spanDigits
    by_cases hd : c.isDigit
    · simp [hd, ih]
    · simp [hd]

/-- Every group of a matched timespan token is a non-empty digit run. -/
theorem matchTimespan_groups (s g0 g1 g2 g3 : String)
    (hm : matchTimespan s = some (g0, g1, g2, g3)) :
    (g0.data ≠ [] ∧ g0.data.all Char.isDigit = true) ∧
    (g1.data ≠ [] ∧ g1.data.all Char.isDigit = true) ∧
    (g2.data ≠ [] ∧ g2.data.all Char.isDigit = true) ∧
    (g3.data ≠ [] ∧ g3.data.all Char.isDigit = true) := by
  unfold matchTimespan at hm
  split at hm
  next d1 rest1 hsp1 =>
    split at hm
    · cases hm
    · next hlen1 =>
      split at hm
      case _ m1 m2 r2 =>
        split at hm
        · cases hm
        · next hdig1 =>
          split at hm
          case _ r3 =>
            split at hm
            next d2 rest2 hsp2 =>
              split at hm
              · cases hm
              · next hlen2 =>
                split at hm
                case _ m3 m4 =>
                  split at hm
                  · next hdig2 =>
                    cases hm
                    have hd1 : d1.all Char.isDigit = true := by
                      have := spanDigits_all_digits s.data
                      rw [hsp1] at this
                      exact this
                    have hd2 : d2.all Char.isDigit = true := by
                      have := spanDigits_all_digits r3
                      rw [hsp2] at this
                      exact this
                    rw [Decidable.not_not] at hdig1
                    refine ⟨⟨?_, hd1⟩, ⟨by simp, ?_⟩, ⟨?_, hd2⟩, ⟨by simp, ?_⟩⟩
                    · show d1 ≠ []
                      intro h0
                      rw [h0] at hlen1
                      simp at hlen1
                    · simp [hdig1.1, hdig1.2]
                    · show d2 ≠ []
                      intro h0
                      rw [h0] at hlen2
                      simp at hlen2
                    · simp [hdig2.1, hdig2.2]
                  · cases hm
                case _ => cases hm
          case _ => cases hm
      case _ => cases hm

/-- C10 (amended): on a token matching the timespan pattern the two
`is not a valid time` branches are unreachable (the `int()` conversions of
the digit groups always succeed), so out-of-range components are not
rejected as invalid times; they are normalised as `timedelta`s and then
subject to the positivity check and the modular duration arithmetic —
`25:00..26:00` is accepted contributing 1.0 hours, while `9:75..10:15`
(whose normalised start 10:15 equals its end) fails the positivity check
rather than an invalid-time check. -/
theorem c10_invalid_time_unreachable (span g0 g1 g2 g3 : String)
    (hm : matchTimespan span = some (g0, g1, g2, g3)) :
    (pyInt g0).isSome = true ∧ (pyInt g1).isSome = true ∧
    (pyInt g2).isSome = true ∧ (pyInt g3).isSome = true ∧
    (∀ a b, procSpan span ≠ .error (.invalidStartTime a b)) ∧
    (∀ a b, procSpan span ≠ .error (.invalidEndTime a b)) ∧
    procSpan "25:00..26:00" = .ok 1 ∧
    procSpan "9:75..10:15" = .error (.notPositive "9:75..10:15") := by
  obtain ⟨⟨hne0, hd0⟩, ⟨hne1, hd1⟩, ⟨hne2, hd2⟩, ⟨hne3, hd3⟩⟩ :=
    matchTimespan_groups span g0 g1 g2 g3 hm
  have h0 := pyInt_of_digit_run g0 hne0 hd0
  have h1 := pyInt_of_digit_run g1 hne1 hd1
  have h2 := pyInt_of_digit_run g2 hne2 hd2
  have h3 := pyInt_of_digit_run g3 hne3 hd3
  have hproc : ∀ a b, procSpan span ≠ .error (.invalidStartTime a b) ∧
      procSpan span ≠ .error (.invalidEndTime a b) := by
    intro a b
    unfold procSpan
    simp only [hm, h0, h1, h2, h3]
    constructor <;> (split <;> simp)
  exact ⟨by simp [h0], by simp [h1], by simp [h2], by simp [h3],
    fun a b => (hproc a b).1, fun a b => (hproc a b).2,
    by with_unfolding_all decide, by with_unfolding_all decide⟩

/-- Concrete instance of C10's unreachability at the claim's own inputs. -/
theorem c10_invalid_time_unreachable_witness :
    (pyInt "25").isSome = true ∧
    procSpan "25:00..26:00" = .ok 1 ∧
    procSpan "9:75..10:15" = .error (.notPositive "9:75..10:15") := by
  have h := c10_invalid_time_unreachable "25:00..26:00" "25" "00" "26" "00"
    (by with_unfolding_all decide)
  exact ⟨h.1, h.2.2.2.2.2.2.1, h.2.2.2.2.2.2.2⟩

/-- Counterexample to C10 as stated: its own example `9:75..10:15` matches
the pattern but the record containing it is *rejected* (the normalised
start equals the end, failing the positivity check), so such tokens are
not all "accepted". -/
theorem c10_invalid_time_unreachable_counterexample :
    matchTimespan "9:75..10:15" = some ("9", "75", "10", "15") ∧
    parse_hours_line (initReport 2013) "Thu 12 Sep for 9:75..10:15"
      = .error (.notPositive "9:75..10:15") :=
  ⟨by with_unfolding_all decide, by with_unfolding_all decide⟩

/-! ## C4's counterexample needs the spec's unreduced duration -/

/-- Modelled from the spec: "sum the (end−start) durations in hours" — the
true duration of a matched timespan with *no* modular reduction, for
comparison with the code's `delta.seconds`-based value. -/
def specSpanTrueHours (s : String) : Option Rat :=
  match matchTimespan s with
  | some (g0, g1, g2, g3) =>
    match pyInt g0, pyInt g1, pyInt g2, pyInt g3 with
    | some h0, some m0, some h1, some m1 =>
      some ((((h1 * 3600 + m1 * 60) - (h0 * 3600 + m0 * 60) : Int) : Rat) / 3600)
    | _, _, _, _ => none
  | none => none

/-- Counterexample to C4 as stated: the well-formed positive span
`0:00..30:00` has true duration 30 hours, but the record's hours come out
as 6.0 because `delta.seconds` drops whole days (the duration is reduced
modulo 24 hours). -/
theorem c4_timespans_additive_permutation_counterexample :
    parse_hours_line (initReport 2003) "Thu 4 Sep for 0:00..30:00"
      = .ok ⟨⟨2003, 9, 4⟩, "Thu", 6, ""⟩ ∧
    specSpanTrueHours "0:00..30:00" = some 30 ∧
    (6 : Rat) ≠ 30 :=
  ⟨by with_unfolding_all decide, by with_unfolding_all decide,
   by with_unfolding_all decide⟩

end ReportHours
